import Mathlib

/-!
# go-load: the TLS-aware HTTP client of `http/http/http.go`

A shallow embedding of the generic `HTTP[REQ, RES]` client.  Go methods with a
pointer receiver become functions in the monad `Go`, which threads the client
record together with a trace of the calls made to the outside world, and whose
results distinguish a normal return from a panic and from process exit
(`log.Fatalf`).  Everything the program asks of the standard library and of the
operating system (file contents, certificate parsing, URL parsing, JSON
encoding, the network round trip) is a field of `Env`.
-/

namespace GoLoad

/-! ## Values -/

/-- Byte strings (`[]byte`), kept as text. -/
abbrev Bytes := String

/-- Go `error` values, identified with their message; `nil` is `none` of `Option Error`. -/
abbrev Error := String

/-- An `x509.CertPool`: the certificates it holds, in insertion order. -/
structure CertPool where
  certs : List String
  deriving DecidableEq, Repr

/-- A `tls.Certificate`: certificate chain and private key as loaded from disk. -/
structure Certificate where
  certPEM : Bytes
  keyPEM : Bytes
  deriving DecidableEq, Repr

/-- The fields of `url.URL` that `url.Parse` fills. -/
structure URL where
  Scheme : String
  Opaque : String
  User : String
  Host : String
  Path : String
  RawQuery : String
  Fragment : String
  deriving DecidableEq, Repr

/-- A `tls.Config`, restricted to the fields the program sets. -/
structure TLSConfig where
  ServerName : String
  InsecureSkipVerify : Bool
  Certificates : List Certificate
  RootCAs : Option CertPool
  deriving DecidableEq, Repr

/-- An `http.Transport`. -/
structure Transport where
  TLSClientConfig : TLSConfig
  deriving DecidableEq, Repr

/-- An `http.Client`; `Timeout` is a `time.Duration` in nanoseconds. -/
structure Client where
  Transport : Transport
  Timeout : Nat
  deriving DecidableEq, Repr

/-- An `http.Header`: canonical key to the list of its values. -/
abbrev Header := List (String × List String)

/-- An `http.Request`; `Body` is `none` for a nil reader, else the payload bytes. -/
structure Request where
  Method : String
  URL : URL
  Header : Header
  Body : Option Bytes
  deriving DecidableEq, Repr

/-- A response body stream: the data not yet read and whether `Close` was called. -/
structure Body where
  data : Bytes
  closed : Bool
  deriving DecidableEq, Repr

/-- An `http.Response`. -/
structure Response where
  StatusCode : Nat
  Header : Header
  Body : Body
  deriving DecidableEq, Repr

/-- The struct `HTTP[REQ, RES]` of `http.go`; pointer fields are options. -/
structure HTTP (REQ RES : Type) where
  client : Option Client
  req : Option Request
  reqBody : Option REQ
  resBody : Option RES
  Url : String
  Path : String
  ContentType : String
  rootCAs : Option CertPool
  clientPair : Option Certificate

/-! ## Outside world -/

/-- What the standard library and the operating system answer. -/
structure Env (REQ : Type) where
  /-- Go `x509.SystemCertPool()`: `none` when the platform store is unavailable. -/
  SystemCertPool : Option CertPool
  /-- Go `os.ReadFile`. -/
  ReadFile : String → Except Error Bytes
  /-- The valid certificates `AppendCertsFromPEM` finds in PEM data. -/
  pemCerts : Bytes → List String
  /-- Go `tls.LoadX509KeyPair`. -/
  LoadX509KeyPair : String → String → Except Error Certificate
  /-- Go `url.Parse`. -/
  Parse : String → Except Error URL
  /-- Go `json.Marshal`. -/
  Marshal : REQ → Except Error Bytes
  /-- Go `(*http.Client).Do`: the round trip of a request through a client. -/
  Do : Client → Request → Except Error Response

/-- Calls to the outside world, in the order they were made. -/
inductive Event where
  | readFile (path : String)
  | loadX509KeyPair (certFile keyFile : String)
  | logPrintln (msg : String)
  | logFatalf (msg : String)
  | clientDo (c : Client) (r : Request)
  | bodyClose
  deriving DecidableEq, Repr

/-- The client a method is called on, and the trace so far. -/
structure World (REQ RES : Type) where
  h : HTTP REQ RES
  events : List Event

/-! ## Control -/

/-- What a panic carries: a runtime nil dereference, or the argument of `panic(err)`. -/
inductive PanicValue where
  | nilDereference
  | error (err : Error)
  deriving DecidableEq, Repr

/-- How a call ends: it returns, it panics, or the process exits (`os.Exit`). -/
inductive Outcome (σ α : Type) where
  | returned (val : α) (st : σ)
  | panicked (p : PanicValue) (st : σ)
  | exited (code : Nat) (st : σ)

/-- The state in which a call ended. -/
def Outcome.st {σ α : Type} : Outcome σ α → σ
  | .returned _ s => s
  | .panicked _ s => s
  | .exited _ s => s

/-- Whether the call returned to its caller. -/
def Outcome.isReturned {σ α : Type} : Outcome σ α → Bool
  | .returned _ _ => true
  | _ => false

/-- Go computations over a state `σ`. -/
def Go (σ α : Type) : Type := σ → Outcome σ α

/-- Sequencing: a panic or an exit skips everything that follows. -/
def Go.bind {σ α β : Type} (m : Go σ α) (f : α → Go σ β) : Go σ β := fun s =>
  match m s with
  | .returned a s1 => f a s1
  | .panicked p s1 => .panicked p s1
  | .exited c s1 => .exited c s1

instance {σ : Type} : Monad (Go σ) where
  pure a := fun s => .returned a s
  bind := Go.bind

/-- Read the state. -/
def getWorld {σ : Type} : Go σ σ := fun s => .returned s s

/-- Change the state. -/
def modifyWorld {σ : Type} (f : σ → σ) : Go σ Unit := fun s => .returned () (f s)

/-- Go `panic(v)`. -/
def goPanic {σ α : Type} (p : PanicValue) : Go σ α := fun s => .panicked p s

/-- Pointer dereference `*p`: a nil pointer panics. -/
def deref {σ α : Type} : Option α → Go σ α
  | some a => pure a
  | none => goPanic .nilDereference

/-- Append an event to the trace. -/
def emit {REQ RES : Type} (e : Event) : Go (World REQ RES) Unit :=
  modifyWorld fun w => { w with events := w.events ++ [e] }

/-- Apply `f` to the client record (`h.field = ...`). -/
def setH {REQ RES : Type} (f : HTTP REQ RES → HTTP REQ RES) : Go (World REQ RES) Unit :=
  modifyWorld fun w => { w with h := f w.h }

/-- The client record (`h`). -/
def getH {REQ RES : Type} : Go (World REQ RES) (HTTP REQ RES) :=
  fun w => .returned w.h w

/-- Go `log.Println`. -/
def logPrintln {REQ RES : Type} (msg : String) : Go (World REQ RES) Unit :=
  emit (.logPrintln msg)

/-- Go `log.Fatalf`: prints and calls `os.Exit(1)`; it never returns. -/
def logFatalf {REQ RES : Type} (msg : String) : Go (World REQ RES) Unit := fun w =>
  .exited 1 { w with events := w.events ++ [.logFatalf msg] }

/-- The pair `(value, err)` of a Go call that answers `Except`. -/
def goResult {α : Type} (zero : α) : Except Error α → α × Option Error
  | .ok a => (a, none)
  | .error e => (zero, some e)

/-! ## Certificate pools -/

/-- Go `x509.NewCertPool()`. -/
def NewCertPool : CertPool := ⟨[]⟩

/-- Go `(*CertPool).AddCert`: a certificate already in the pool is not added again. -/
def CertPool.AddCert (s : CertPool) (c : String) : CertPool :=
  if c ∈ s.certs then s else ⟨s.certs ++ [c]⟩

/-- Go `(*CertPool).AppendCertsFromPEM` on the certificates found in the data:
the pool afterwards, and whether any certificate was found. -/
def CertPool.AppendCertsFromPEM (s : CertPool) (found : List String) : CertPool × Bool :=
  (found.foldl CertPool.AddCert s, !found.isEmpty)

/-- The `%q` verb on a string without special characters. -/
def quoted (s : String) : String := "\x22" ++ s ++ "\x22"

/-! ## http.go: construction and credentials -/

/-- Go `NewHTTP[REQ, RES](url)`. -/
def NewHTTP {REQ RES : Type} (url : String) : HTTP REQ RES :=
  { client := none, req := none, reqBody := none, resBody := none,
    Url := url, Path := "", ContentType := "application/json",
    rootCAs := none, clientPair := none }

/-- Go `(h *HTTP) SetRootCA(caCertPath)`. -/
def SetRootCA {REQ RES : Type} (env : Env REQ) (caCertPath : String) :
    Go (World REQ RES) (Option CertPool × Option Error) := do
  let rootCAs : CertPool :=
    match env.SystemCertPool with
    | some pool => pool
    | none => NewCertPool
  -- read in the cert file
  emit (.readFile caCertPath)
  let (caCert, err) := goResult "" (env.ReadFile caCertPath)
  if err ≠ none then
    logFatalf ("failed to append " ++ quoted "ca.crt" ++ " to RootCAs: " ++ err.getD "")
    return (none, err)
  let (rootCAs, ok) := rootCAs.AppendCertsFromPEM (env.pemCerts caCert)
  if !ok then
    logPrintln "no certs appended, using system certs only"
  setH fun h => { h with rootCAs := some rootCAs }
  return ((← getH).rootCAs, none)

/-- Go `(h *HTTP) SetClientPair(certPath, keyPath)`. -/
def SetClientPair {REQ RES : Type} (env : Env REQ) (certPath keyPath : String) :
    Go (World REQ RES) (Option Certificate × Option Error) := do
  emit (.loadX509KeyPair certPath keyPath)
  let (cert, err) := goResult (⟨"", ""⟩ : Certificate) (env.LoadX509KeyPair certPath keyPath)
  if err ≠ none then
    logFatalf ("Error opening cert file " ++ certPath ++ " and key " ++ keyPath ++
      ", Error: " ++ err.getD "")
  setH fun h => { h with clientPair := some cert }
  return (some cert, err)

/-- Go `(h *HTTP) SetCerts(caCertPath, certPath, keyPath)`. -/
def SetCerts {REQ RES : Type} (env : Env REQ) (caCertPath certPath keyPath : String) :
    Go (World REQ RES) (Option Error) := do
  let (_, err) ← SetRootCA env caCertPath
  if err ≠ none then
    return err
  let (_, err) ← SetClientPair env certPath keyPath
  if err ≠ none then
    return err
  return none

/-! ## net/http and net/textproto: requests and headers -/

/-- The token characters of RFC 7230 (`httpguts.IsTokenRune`, `validHeaderFieldByte`). -/
def isTokenChar (c : Char) : Bool :=
  let n := c.toNat
  (48 ≤ n && n ≤ 57) || (65 ≤ n && n ≤ 90) || (97 ≤ n && n ≤ 122) ||
    [33, 35, 36, 37, 38, 39, 42, 43, 45, 46, 94, 95, 96, 124, 126].contains n

/-- The casing loop of `canonicalMIMEHeaderKey`: upper case at the start and after
a hyphen, lower case elsewhere. -/
def canonCase : Bool → List Char → List Char
  | _, [] => []
  | upper, c :: cs =>
    let n := c.toNat
    let c1 :=
      if upper && (97 ≤ n && n ≤ 122) then Char.ofNat (n - 32)
      else if !upper && (65 ≤ n && n ≤ 90) then Char.ofNat (n + 32)
      else c
    c1 :: canonCase (c1 == '-') cs

/-- Go `textproto.CanonicalMIMEHeaderKey`: a key with a character that is not a
token character is returned unchanged. -/
def CanonicalMIMEHeaderKey (s : String) : String :=
  if s.toList.all isTokenChar then String.mk (canonCase true s.toList) else s

/-- Go `Header.Add(key, value)`: append the value under the canonical key. -/
def Header.Add (h : Header) (key value : String) : Header :=
  let k := CanonicalMIMEHeaderKey key
  if h.any (fun p => p.1 == k) then
    h.map fun p => if p.1 == k then (p.1, p.2 ++ [value]) else p
  else h ++ [(k, [value])]

/-- The loop `for key, value := range *headers { req.Header.Add(key, value) }`,
the mapping given as the list of its entries in the order the loop meets them. -/
def addHeaders (h : Header) (headers : List (String × String)) : Header :=
  headers.foldl (fun acc kv => Header.Add acc kv.1 kv.2) h

/-- Go `validMethod`. -/
def validMethod (method : String) : Bool :=
  !method.toList.isEmpty && method.toList.all isTokenChar

/-- Go `removeEmptyPort`: a host ending in a colon loses that colon. -/
def removeEmptyPort (host : String) : String :=
  match host.toList.reverse with
  | ':' :: rest => String.mk rest.reverse
  | _ => host

/-- Go `http.MethodGet`. -/
def MethodGet : String := "GET"

/-- Go `http.MethodPost`. -/
def MethodPost : String := "POST"

/-- Go `time.Second`, in nanoseconds. -/
def Second : Nat := 1000000000

/-- Go `http.NewRequest(method, url, body)`. -/
def httpNewRequest {REQ : Type} (env : Env REQ) (method url : String) (body : Option Bytes) :
    Option Request × Option Error :=
  let method := if method = "" then "GET" else method
  if !validMethod method then
    (none, some ("net/http: invalid method " ++ quoted method))
  else
    match env.Parse url with
    | .error err => (none, some err)
    | .ok u =>
      (some { Method := method, URL := { u with Host := removeEmptyPort u.Host },
              Header := [], Body := body }, none)

/-- Go `(*http.Client).Do(req)`. -/
def clientDo {REQ RES : Type} (env : Env REQ) (c : Option Client) (r : Option Request) :
    Go (World REQ RES) (Option Response × Option Error) := do
  let c ← deref c
  let r ← deref r
  emit (.clientDo c r)
  match env.Do c r with
  | .ok resp => return (some resp, none)
  | .error err => return (none, some err)

/-- Go `Body.Close()`. -/
def Body.Close (b : Body) : Body := { b with closed := true }

/-- Go `io.ReadAll(resp.Body)`: a closed body yields no data and a read error. -/
def Body.ReadAll (b : Body) : Bytes × Option Error :=
  if b.closed then ("", some "http: read on closed response body") else (b.data, none)

/-! ## http.go: requests -/

/-- Go `getDomain(_url)`: the parse error is dropped, and a nil `u` panics at `u.Scheme`. -/
def getDomain {REQ RES : Type} (env : Env REQ) (_url : String) : Go (World REQ RES) String := do
  let u : Option URL :=
    match env.Parse _url with
    | .ok u => some u
    | .error _ => none
  let u ← deref u
  return u.Scheme ++ "://" ++ u.Host

/-- Go `(h *HTTP) NewRequest(method, headers, body)`. -/
def NewRequest {REQ RES : Type} (env : Env REQ) (method : String)
    (headers : Option (List (String × String))) (body : Option REQ) :
    Go (World REQ RES) (Option Error) := do
  let (marshalBody, _) := goResult "" (env.Marshal (← deref body))
  let buffBody : Bytes := marshalBody
  let serverName ← getDomain env (← getH).Url
  let clientPair ← deref (← getH).clientPair
  let rootCAs := (← getH).rootCAs
  let tr : Transport :=
    { TLSClientConfig :=
        { ServerName := serverName,
          InsecureSkipVerify := true,
          Certificates := [clientPair],
          RootCAs := rootCAs } }
  setH fun h => { h with client := some { Transport := tr, Timeout := 30 * Second } }
  let (req, err) := httpNewRequest env method (← getH).Url (some buffBody)
  setH fun h => { h with req := req }
  if err ≠ none then
    return err
  let headers ← deref headers
  let req ← deref (← getH).req
  setH fun h => { h with req := some { req with Header := addHeaders req.Header headers } }
  return none

/-- Go `(h *HTTP) Get(headers)`. -/
def Get {REQ RES : Type} (env : Env REQ) (headers : Option (List (String × String))) :
    Go (World REQ RES) (Option Response × Option Error) := do
  let headers := if headers = none then some [] else headers
  let serverName ← getDomain env (← getH).Url
  let clientPair ← deref (← getH).clientPair
  let rootCAs := (← getH).rootCAs
  let tr : Transport :=
    { TLSClientConfig :=
        { ServerName := serverName,
          InsecureSkipVerify := true,
          Certificates := [clientPair],
          RootCAs := rootCAs } }
  setH fun h => { h with client := some { Transport := tr, Timeout := 30 * Second } }
  let (req, err) := httpNewRequest env MethodGet (← getH).Url none
  setH fun h => { h with req := req }
  if err ≠ none then
    return (none, err)
  let headers ← deref headers
  let req ← deref (← getH).req
  setH fun h => { h with req := some { req with Header := addHeaders req.Header headers } }
  if err ≠ none then
    return (none, err)
  let (resp, err) ← clientDo env (← getH).client (← getH).req
  if err ≠ none then
    goPanic (.error (err.getD ""))
  return (resp, none)

/-- Go `(h *HTTP) Post(headers, body)`; the deferred `resp.Body.Close()` runs as
`Post` returns, so the response the caller receives has had its body closed. -/
def Post {REQ RES : Type} (env : Env REQ) (headers : Option (List (String × String)))
    (body : Option REQ) : Go (World REQ RES) (Option Response × Option Error) := do
  let err ← NewRequest env MethodPost headers body
  if err ≠ none then
    return (none, err)
  let (resp, err) ← clientDo env (← getH).client (← getH).req
  if err ≠ none then
    goPanic (.error (err.getD ""))
  let r ← deref resp
  emit .bodyClose
  return (some { r with Body := r.Body.Close }, none)

/-! ## net/url: a model of `url.Parse`

The parser of the standard library, for URLs without percent escapes and
without bracketed (IPv6) hosts; on those the model answers an error.  It is
used only to build the concrete environment `demoEnv`: the general theorems
hold for every `Env.Parse`. -/

/-- Go `strings.Cut` on a one-character separator: the text before the first
occurrence, and the text after it when there is one. -/
def cutAt (sep : Char) : List Char → List Char × Option (List Char)
  | [] => ([], none)
  | c :: cs =>
    if c == sep then ([], some cs)
    else
      let r := cutAt sep cs
      (c :: r.1, r.2)

/-- Go `stringContainsCTLByte`. -/
def containsCTL (s : List Char) : Bool :=
  s.any fun c => c.toNat < 32 || c.toNat == 127

/-- ASCII letters. -/
def isLetter (c : Char) : Bool :=
  let n := c.toNat
  (65 ≤ n && n ≤ 90) || (97 ≤ n && n ≤ 122)

/-- ASCII digits. -/
def isDigit (c : Char) : Bool :=
  let n := c.toNat
  48 ≤ n && n ≤ 57

/-- Go `strings.ToLower` on ASCII. -/
def toLowerChar (c : Char) : Char :=
  let n := c.toNat
  if 65 ≤ n && n ≤ 90 then Char.ofNat (n + 32) else c

/-- The loop of Go `getScheme`: `seen` is the text before the current position,
reversed; the answer is the scheme and the rest. -/
def getSchemeLoop (raw : List Char) : List Char → List Char → Except Error (List Char × List Char)
  | _, [] => .ok ([], raw)
  | seen, c :: cs =>
    if isLetter c then getSchemeLoop raw (c :: seen) cs
    else if isDigit c || c == '+' || c == '-' || c == '.' then
      if seen.isEmpty then .ok ([], raw) else getSchemeLoop raw (c :: seen) cs
    else if c == ':' then
      if seen.isEmpty then .error "missing protocol scheme" else .ok (seen.reverse, cs)
    else .ok ([], raw)

/-- Go `getScheme`. -/
def getScheme (raw : List Char) : Except Error (List Char × List Char) :=
  getSchemeLoop raw [] raw

/-- Go `validOptionalPort`: empty, or a colon followed by digits only. -/
def validOptionalPort : List Char → Bool
  | [] => true
  | c :: cs => c == ':' && cs.all isDigit

/-- The text from the last colon on (Go `host[strings.LastIndex(host, ":"):]`),
when there is a colon. -/
def fromLastColon (host : List Char) : Option (List Char) :=
  match cutAt ':' host.reverse with
  | (afterRev, some _) => some (':' :: afterRev.reverse)
  | (_, none) => none

/-- The characters Go `unescape` lets through in a host (`shouldEscape` false). -/
def hostCharOK (c : Char) : Bool :=
  128 ≤ c.toNat || isLetter c || isDigit c ||
    [33, 36, 38, 39, 40, 41, 42, 43, 44, 59, 61, 58, 91, 93, 60, 62, 34, 45, 95, 46, 126].contains
      c.toNat

/-- Go `parseHost`, without brackets and escapes. -/
def parseHost (host : List Char) : Except Error String :=
  if host.head? = some '[' || host.contains '%' then .error "host outside the model"
  else if (fromLastColon host).any (fun colonPort => !validOptionalPort colonPort) then
    .error ("invalid port " ++ quoted (String.mk ((fromLastColon host).getD [])) ++ " after host")
  else if host.all hostCharOK then .ok (String.mk host)
  else .error "invalid character in host name"

/-- The characters Go `validUserinfo` accepts. -/
def userinfoCharOK (c : Char) : Bool :=
  isLetter c || isDigit c ||
    [45, 46, 95, 58, 126, 33, 36, 38, 39, 40, 41, 42, 43, 44, 59, 61, 37, 64].contains c.toNat

/-- Go `parseAuthority`: user information up to the last `@`, then the host. -/
def parseAuthority (authority : List Char) : Except Error (String × String) :=
  match cutAt '@' authority.reverse with
  | (_, none) => (parseHost authority).map fun host => ("", host)
  | (hostRev, some userRev) =>
    match parseHost hostRev.reverse with
    | .error e => .error e
    | .ok host =>
      if userRev.all userinfoCharOK && !userRev.contains '%' then .ok (String.mk userRev.reverse, host)
      else .error "net/url: invalid userinfo"

/-- Go `parse(rawURL, false)`: scheme, query, opaque part, authority and path. -/
def parseNoFragment (raw : List Char) : Except Error URL :=
  if containsCTL raw then .error "net/url: invalid control character in URL"
  else if raw = ['*'] then .ok ⟨"", "", "", "", "*", "", ""⟩
  else
    match getScheme raw with
    | .error e => .error e
    | .ok (scheme, rest) =>
      let scheme := String.mk (scheme.map toLowerChar)
      let (rest, rawQuery) :=
        if rest.getLast? = some '?' && rest.count '?' == 1 then (rest.dropLast, [])
        else ((cutAt '?' rest).1, ((cutAt '?' rest).2).getD [])
      if rest.head? ≠ some '/' && scheme ≠ "" then
        .ok ⟨scheme, String.mk rest, "", "", "", String.mk rawQuery, ""⟩
      else if rest.head? ≠ some '/' && (cutAt '/' rest).1.contains ':' then
        .error "first path segment in URL cannot contain colon"
      else if (scheme ≠ "" || rest.take 3 ≠ ['/', '/', '/']) && rest.take 2 = ['/', '/'] then
        let authority := (cutAt '/' (rest.drop 2)).1
        let path := match (cutAt '/' (rest.drop 2)).2 with
          | some p => '/' :: p
          | none => []
        match parseAuthority authority with
        | .error e => .error e
        | .ok (user, host) =>
          if path.contains '%' then .error "path outside the model"
          else .ok ⟨scheme, "", user, host, String.mk path, String.mk rawQuery, ""⟩
      else if rest.contains '%' then .error "path outside the model"
      else .ok ⟨scheme, "", "", "", String.mk rest, String.mk rawQuery, ""⟩

/-- Go `url.Parse`: the fragment is cut off first. -/
def urlParse (rawURL : String) : Except Error URL :=
  let (u, frag) := cutAt '#' rawURL.toList
  match parseNoFragment u with
  | .error e => .error ("parse " ++ quoted (String.mk u) ++ ": " ++ e)
  | .ok url =>
    match frag with
    | none => .ok url
    | some f =>
      if f.contains '%' then .error "fragment outside the model"
      else .ok { url with Fragment := String.mk f }

/-! ## A concrete environment

The setting of `main.go`: a CA bundle and a client pair under `../certs`, and a
server on `localhost:8080` that answers `/health` with `ok`. -/

/-- The content of `../certs/ca.crt`. -/
def caPEM : Bytes := "-----BEGIN CERTIFICATE-----test-ca-----END CERTIFICATE-----"

/-- The identity in `../certs/client.crt` and `../certs/client.key`. -/
def demoPair : Certificate := ⟨"client.crt", "client.key"⟩

/-- The response of the demonstration server, its body still unread. -/
def demoResponse : Response := ⟨200, [], ⟨"ok", false⟩⟩

/-- A file system with the three credential files, an empty bundle and a key
`other.key` that does not belong to the certificate; a network on which only
`localhost:8080` answers; request bodies that are plain strings. -/
def demoEnv : Env String where
  SystemCertPool := some ⟨["system-root"]⟩
  ReadFile := fun path =>
    if path = "../certs/ca.crt" then .ok caPEM
    else if path = "../certs/empty.crt" then .ok ""
    else .error ("open " ++ path ++ ": no such file or directory")
  pemCerts := fun data => if data = caPEM then ["test-ca"] else []
  LoadX509KeyPair := fun certFile keyFile =>
    if certFile = "../certs/client.crt" && keyFile = "../certs/client.key" then .ok demoPair
    else if certFile = "../certs/client.crt" && keyFile = "../certs/other.key" then
      .error "tls: private key does not match public key"
    else .error ("open " ++ certFile ++ ": no such file or directory")
  Parse := urlParse
  Marshal := fun body => .ok (quoted body)
  Do := fun _ r =>
    if r.URL.Host = "localhost:8080" then .ok demoResponse
    else .error ("dial tcp: lookup " ++ r.URL.Host ++ ": no such host")

/-- The client of `main.go`, as `NewHTTP` leaves it, with an empty trace. -/
def mainWorld : World String String :=
  ⟨NewHTTP "https://localhost:8080/health", []⟩

/-- A client with both credentials of `main.go` stored: the state `SetCerts` leaves. -/
def readyWorld : World String String :=
  (SetCerts demoEnv "../certs/ca.crt" "../certs/client.crt" "../certs/client.key" mainWorld).st

/-- A client with an identity whose target host does not answer. -/
def downWorld : World String String :=
  ⟨{ (NewHTTP "https://nowhere.invalid/health" : HTTP String String) with
      clientPair := some demoPair }, []⟩

/-- A client with an identity whose target is not a URL (`url.Parse` rejects it). -/
def badUrlWorld : World String String :=
  ⟨{ (NewHTTP ":" : HTTP String String) with clientPair := some demoPair }, []⟩

/-- A client with a trust store already stored and no identity. -/
def trustedWorld : World String String :=
  ⟨{ (NewHTTP "https://localhost:8080/health" : HTTP String String) with
      rootCAs := some ⟨["old-root"]⟩ }, []⟩

/-! ## Vocabulary of the statements -/

/-- Go map access `h[key]`: the values stored under a key, nil when absent. -/
def Header.index : Header → String → List String
  | [], _ => []
  | p :: t, key => if p.1 = key then p.2 else Header.index t key

/-- The pool `SetRootCA` starts from: the platform store, or an empty pool. -/
def basePool {REQ : Type} (env : Env REQ) : CertPool :=
  match env.SystemCertPool with
  | some pool => pool
  | none => NewCertPool

/-- The client literal of `Get` and `NewRequest`, for given field values. -/
def builtClient (serverName : String) (cert : Certificate) (rootCAs : Option CertPool) : Client :=
  { Transport :=
      { TLSClientConfig :=
          { ServerName := serverName,
            InsecureSkipVerify := true,
            Certificates := [cert],
            RootCAs := rootCAs } },
    Timeout := 30 * Second }

/-- The request of `http.NewRequest` on a parsed target, after the header loop. -/
def builtRequest (method : String) (u : URL) (headers : List (String × String))
    (body : Option Bytes) : Request :=
  { Method := method, URL := { u with Host := removeEmptyPort u.Host },
    Header := addHeaders [] headers, Body := body }

/-! ## How each method runs -/

variable {REQ RES : Type}

theorem SetRootCA_unreadable (env : Env REQ) (path : String) (w : World REQ RES) (e : Error)
    (hr : env.ReadFile path = .error e) :
    SetRootCA env path w = .exited 1 { w with events := w.events ++ [.readFile path, .logFatalf ("failed to append " ++ quoted "ca.crt" ++ " to RootCAs: " ++ e)] } := by
  simp [SetRootCA, hr, goResult, bind, Go.bind, emit, modifyWorld, logFatalf]

theorem SetRootCA_readable (env : Env REQ) (path : String) (w : World REQ RES) (d : Bytes)
    (hr : env.ReadFile path = .ok d) :
    SetRootCA env path w =
      .returned (some ((basePool env).AppendCertsFromPEM (env.pemCerts d)).1, none)
        { h := { w.h with rootCAs := some ((basePool env).AppendCertsFromPEM (env.pemCerts d)).1 },
          events := w.events ++ .readFile path ::
            (if (env.pemCerts d).isEmpty then [.logPrintln "no certs appended, using system certs only"] else []) } := by
  by_cases hf : (env.pemCerts d).isEmpty <;>
  simp [SetRootCA, hr, goResult, bind, Go.bind, emit, modifyWorld, logFatalf, logPrintln, setH, getH, pure, basePool, CertPool.AppendCertsFromPEM, hf]

theorem SetClientPair_fails (env : Env REQ) (cp kp : String) (w : World REQ RES) (e : Error)
    (hl : env.LoadX509KeyPair cp kp = .error e) :
    SetClientPair env cp kp w = .exited 1 { w with events := w.events ++ [.loadX509KeyPair cp kp,
      .logFatalf ("Error opening cert file " ++ cp ++ " and key " ++ kp ++ ", Error: " ++ e)] } := by
  simp [SetClientPair, hl, goResult, bind, Go.bind, emit, modifyWorld, logFatalf]

theorem SetClientPair_loads (env : Env REQ) (cp kp : String) (w : World REQ RES) (cert : Certificate)
    (hl : env.LoadX509KeyPair cp kp = .ok cert) :
    SetClientPair env cp kp w = .returned (some cert, none)
      { h := { w.h with clientPair := some cert }, events := w.events ++ [.loadX509KeyPair cp kp] } := by
  simp [SetClientPair, hl, goResult, bind, Go.bind, emit, modifyWorld, logFatalf, setH, pure]

theorem SetCerts_eq (env : Env REQ) (ca cp kp : String) (w : World REQ RES) :
    SetCerts env ca cp kp w =
      match SetRootCA env ca w with
      | .returned (_, none) w1 =>
        (match SetClientPair env cp kp w1 with
         | .returned (_, err) w2 => .returned err w2
         | .panicked p w2 => .panicked p w2
         | .exited c w2 => .exited c w2)
      | .returned (_, some e) w1 => .returned (some e) w1
      | .panicked p w1 => .panicked p w1
      | .exited c w1 => .exited c w1 := by
  simp only [SetCerts, bind, Go.bind]
  cases h1 : SetRootCA env ca w with
  | returned v w1 =>
    obtain ⟨p, err⟩ := v
    cases err with
    | none =>
      simp
      cases h2 : SetClientPair env cp kp w1 with
      | returned v2 w2 => 
        obtain ⟨p2, err2⟩ := v2
        cases err2 <;> simp [pure, Go.bind, h2]
      | panicked p w2 => simp [pure, Go.bind, h2]
      | exited c w2 => simp [pure, Go.bind, h2]
    | some e => simp [pure]
  | panicked p w1 => simp
  | exited c w1 => simp

theorem index_map_ne (t : Header) (ck k value : String) (hk : ¬ k = ck) :
    Header.index (t.map fun p => if p.1 = ck then (p.1, p.2 ++ [value]) else p) k = Header.index t k := by
  induction t with
  | nil => rfl
  | cons p t ih =>
    by_cases hp : p.1 = ck
    · have hck : ¬ ck = k := fun h => hk h.symm
      simp [Header.index, hp, ih, hck]
    · simp [Header.index, hp, ih]

theorem index_map_eq (t : Header) (ck value : String) (ha : ∃ p ∈ t, p.1 = ck) :
    Header.index (t.map fun p => if p.1 = ck then (p.1, p.2 ++ [value]) else p) ck = Header.index t ck ++ [value] := by
  induction t with
  | nil => simp at ha
  | cons p t ih =>
    by_cases hp : p.1 = ck
    · simp [Header.index, hp]
    · have ha2 : ∃ q ∈ t, q.1 = ck := by
        obtain ⟨q, hq, hqk⟩ := ha
        rcases List.mem_cons.1 hq with h | h
        · exact absurd (h ▸ hqk) hp
        · exact ⟨q, h, hqk⟩
      simp [Header.index, hp, ih ha2]

theorem index_absent (t : Header) (k : String) (ha : ¬ ∃ p ∈ t, p.1 = k) : Header.index t k = [] := by
  induction t with
  | nil => rfl
  | cons p t ih =>
    have hp : ¬ p.1 = k := fun h => ha ⟨p, List.mem_cons_self _ _, h⟩
    have ht : ¬ ∃ q ∈ t, q.1 = k := fun ⟨q, hq, hqk⟩ => ha ⟨q, List.mem_cons_of_mem _ hq, hqk⟩
    simp [Header.index, hp, ih ht]

theorem index_append_ne (t : Header) (ck k : String) (vs : List String) (hk : ¬ k = ck) :
    Header.index (t ++ [(ck, vs)]) k = Header.index t k := by
  induction t with
  | nil => simp [Header.index]; intro h; exact absurd h.symm hk
  | cons p t ih => simp [Header.index, ih]

theorem index_append_absent (t : Header) (ck : String) (vs : List String) (ha : ¬ ∃ p ∈ t, p.1 = ck) :
    Header.index (t ++ [(ck, vs)]) ck = vs := by
  induction t with
  | nil => simp [Header.index]
  | cons p t ih =>
    have hp : ¬ p.1 = ck := fun h => ha ⟨p, List.mem_cons_self _ _, h⟩
    have ht : ¬ ∃ q ∈ t, q.1 = ck := fun ⟨q, hq, hqk⟩ => ha ⟨q, List.mem_cons_of_mem _ hq, hqk⟩
    simp [Header.index, hp, ih ht]

theorem index_Add (h : Header) (key value k : String) :
    Header.index (Header.Add h key value) k =
      if k = CanonicalMIMEHeaderKey key then Header.index h k ++ [value] else Header.index h k := by
  unfold Header.Add
  by_cases ha : ∃ p ∈ h, p.1 = CanonicalMIMEHeaderKey key
  · have ha2 : (h.any fun p => p.1 == CanonicalMIMEHeaderKey key) = true := by
      simpa using ha
    simp only [ha2, if_true]
    by_cases hk : k = CanonicalMIMEHeaderKey key
    · subst hk
      simp only [if_true]
      simpa using index_map_eq h _ value ha
    · simp only [hk, if_false]
      simpa using index_map_ne h _ k value hk
  · have ha2 : ¬ (h.any fun p => p.1 == CanonicalMIMEHeaderKey key) = true := by
      simpa using ha
    simp only [ha2]
    by_cases hk : k = CanonicalMIMEHeaderKey key
    · subst hk
      simp [index_append_absent h _ [value] ha, index_absent h _ ha]
    · simp [hk, index_append_ne h _ k [value] hk]

theorem keys_Add (h : Header) (key value : String) (p : String × List String)
    (hp : p ∈ Header.Add h key value) : (∃ q ∈ h, q.1 = p.1) ∨ p.1 = CanonicalMIMEHeaderKey key := by
  simp only [Header.Add] at hp
  split at hp
  · obtain ⟨q, hq, rfl⟩ := List.mem_map.1 hp
    left
    refine ⟨q, hq, ?_⟩
    split <;> rfl
  · rcases List.mem_append.1 hp with h1 | h1
    · exact Or.inl ⟨p, h1, rfl⟩
    · right
      simp at h1
      simp [h1]

theorem index_addHeaders (hs : List (String × String)) (h : Header) (k : String) :
    Header.index (addHeaders h hs) k =
      Header.index h k ++ (hs.filter fun kv => CanonicalMIMEHeaderKey kv.1 = k).map Prod.snd := by
  induction hs generalizing h with
  | nil => simp [addHeaders]
  | cons kv t ih =>
    have := ih (Header.Add h kv.1 kv.2)
    simp only [addHeaders, List.foldl_cons] at this ⊢
    rw [this, index_Add]
    by_cases hk : k = CanonicalMIMEHeaderKey kv.1
    · simp [hk, List.filter_cons]
    · have hk2 : ¬ CanonicalMIMEHeaderKey kv.1 = k := fun h => hk h.symm
      simp [hk, hk2, List.filter_cons]

theorem keys_addHeaders (hs : List (String × String)) (h : Header) (p : String × List String)
    (hp : p ∈ addHeaders h hs) :
    (∃ q ∈ h, q.1 = p.1) ∨ ∃ kv ∈ hs, p.1 = CanonicalMIMEHeaderKey kv.1 := by
  induction hs generalizing h with
  | nil => exact Or.inl ⟨p, by simpa [addHeaders] using hp, rfl⟩
  | cons kv t ih =>
    have hp2 : p ∈ addHeaders (Header.Add h kv.1 kv.2) t := by simpa [addHeaders] using hp
    rcases ih _ hp2 with ⟨q, hq, hqp⟩ | ⟨kv2, hkv2, h2⟩
    · rcases keys_Add h kv.1 kv.2 q hq with h3 | h3
      · obtain ⟨q2, hq2, e⟩ := h3
        exact Or.inl ⟨q2, hq2, e.trans hqp⟩
      · exact Or.inr ⟨kv, List.mem_cons_self _ _, hqp ▸ h3⟩
    · exact Or.inr ⟨kv2, List.mem_cons_of_mem _ hkv2, h2⟩

theorem filter_canon_single (hs : List (String × String))
    (hnd : (hs.map fun kv => CanonicalMIMEHeaderKey kv.1).Nodup) (kv : String × String) (hm : kv ∈ hs) :
    (hs.filter fun x => CanonicalMIMEHeaderKey x.1 = CanonicalMIMEHeaderKey kv.1).map Prod.snd = [kv.2] := by
  induction hs with
  | nil => simp at hm
  | cons a t ih =>
    rw [List.map_cons, List.nodup_cons] at hnd
    rcases List.mem_cons.1 hm with h | h
    · subst h
      have : t.filter (fun x => CanonicalMIMEHeaderKey x.1 = CanonicalMIMEHeaderKey kv.1) = [] := by
        rw [List.filter_eq_nil_iff]
        intro x hx hc
        simp at hc
        exact hnd.1 (List.mem_map.2 ⟨x, hx, hc⟩)
      simp [List.filter_cons, this]
    · have hne : ¬ CanonicalMIMEHeaderKey a.1 = CanonicalMIMEHeaderKey kv.1 := by
        intro hc
        exact hnd.1 (List.mem_map.2 ⟨kv, h, hc.symm⟩)
      simp [List.filter_cons, hne, ih hnd.2 h]

theorem Get_run (env : Env REQ) (headers : Option (List (String × String))) (w : World REQ RES)
    (u : URL) (cert : Certificate) (hu : env.Parse w.h.Url = .ok u) (hc : w.h.clientPair = some cert) :
    Get env headers w =
      let c := builtClient (u.Scheme ++ "://" ++ u.Host) cert w.h.rootCAs
      let r := builtRequest "GET" u (headers.getD []) none
      let w1 : World REQ RES := { h := { w.h with client := some c, req := some r }, events := w.events ++ [.clientDo c r] }
      match env.Do c r with
      | .ok resp => .returned (some resp, none) w1
      | .error e => .panicked (.error e) w1 := by
  cases headers <;>
  simp [Get, getDomain, bind, Go.bind, getH, setH, modifyWorld, deref, pure, hu, hc, httpNewRequest, MethodGet, validMethod, isTokenChar, clientDo, emit, goPanic, builtClient, builtRequest] <;>
  (generalize env.Do _ _ = d; cases d <;> simp [Go.bind, goPanic])

theorem Get_no_identity (env : Env REQ) (headers : Option (List (String × String))) (w : World REQ RES)
    (hc : w.h.clientPair = none) : Get env headers w = .panicked .nilDereference w := by
  cases hp : env.Parse w.h.Url <;>
  simp [Get, getDomain, bind, Go.bind, getH, deref, pure, hp, hc, goPanic]

theorem Get_bad_url (env : Env REQ) (headers : Option (List (String × String))) (w : World REQ RES)
    (e : Error) (hp : env.Parse w.h.Url = .error e) : Get env headers w = .panicked .nilDereference w := by
  simp [Get, getDomain, bind, Go.bind, getH, deref, pure, hp, goPanic]

theorem NewRequest_no_identity (env : Env REQ) (method : String) (headers : Option (List (String × String)))
    (body : Option REQ) (w : World REQ RES)
    (hc : w.h.clientPair = none) : NewRequest env method headers body w = .panicked .nilDereference w := by
  cases body <;> cases hp : env.Parse w.h.Url <;>
  simp [NewRequest, getDomain, bind, Go.bind, getH, deref, pure, hp, hc, goPanic]

theorem NewRequest_bad_url (env : Env REQ) (method : String) (headers : Option (List (String × String)))
    (body : Option REQ) (w : World REQ RES)
    (e : Error) (hp : env.Parse w.h.Url = .error e) : NewRequest env method headers body w = .panicked .nilDereference w := by
  cases body <;>
  simp [NewRequest, getDomain, bind, Go.bind, getH, deref, pure, hp, goPanic]

theorem NewRequest_client (env : Env REQ) (method : String) (headers : Option (List (String × String)))
    (b : REQ) (w : World REQ RES)
    (u : URL) (cert : Certificate) (hu : env.Parse w.h.Url = .ok u) (hc : w.h.clientPair = some cert) :
    (NewRequest env method headers (some b) w).st.h.client = some (builtClient (u.Scheme ++ "://" ++ u.Host) cert w.h.rootCAs) ∧
    (NewRequest env method headers (some b) w).st.events = w.events := by
  by_cases hm : validMethod (if method = "" then "GET" else method) <;> cases headers <;>
  simp [NewRequest, getDomain, bind, Go.bind, getH, setH, modifyWorld, deref, pure, hu, hc, httpNewRequest, hm, goPanic, builtClient, Outcome.st]

theorem NewRequest_run (env : Env REQ) (method : String) (hs : List (String × String))
    (b : REQ) (w : World REQ RES)
    (u : URL) (cert : Certificate) (hu : env.Parse w.h.Url = .ok u) (hc : w.h.clientPair = some cert)
    (hm : validMethod method = true) :
    NewRequest env method (some hs) (some b) w =
      .returned none { w with h := { w.h with
        client := some (builtClient (u.Scheme ++ "://" ++ u.Host) cert w.h.rootCAs),
        req := some (builtRequest method u hs (some (goResult "" (env.Marshal b)).1)) } } := by
  have hne : ¬ method = "" := by
    intro h; subst h; simp [validMethod] at hm
  simp [NewRequest, getDomain, bind, Go.bind, getH, setH, modifyWorld, deref, pure, hu, hc, httpNewRequest, hm, hne, goPanic, builtClient, builtRequest]

theorem Post_run (env : Env REQ) (hs : List (String × String)) (b : REQ) (w : World REQ RES)
    (u : URL) (cert : Certificate) (hu : env.Parse w.h.Url = .ok u) (hc : w.h.clientPair = some cert) :
    Post env (some hs) (some b) w =
      let c := builtClient (u.Scheme ++ "://" ++ u.Host) cert w.h.rootCAs
      let r := builtRequest "POST" u hs (some (goResult "" (env.Marshal b)).1)
      let w1 : World REQ RES := { h := { w.h with client := some c, req := some r }, events := w.events ++ [.clientDo c r] }
      match env.Do c r with
      | .ok resp => .returned (some { resp with Body := resp.Body.Close }, none) { w1 with events := w1.events ++ [.bodyClose] }
      | .error e => .panicked (.error e) w1 := by
  have hm : validMethod "POST" = true := by decide
  simp only [Post, bind, Go.bind, MethodPost, NewRequest_run env "POST" hs b w u cert hu hc hm]
  simp [getH, clientDo, deref, pure, Go.bind, bind, emit, modifyWorld]
  generalize env.Do _ _ = d; cases d <;> simp [Go.bind, goPanic, modifyWorld, emit]

theorem Post_no_identity (env : Env REQ) (headers : Option (List (String × String)))
    (body : Option REQ) (w : World REQ RES)
    (hc : w.h.clientPair = none) : Post env headers body w = .panicked .nilDereference w := by
  simp [Post, bind, Go.bind, NewRequest_no_identity env MethodPost headers body w hc]

theorem Post_bad_url (env : Env REQ) (headers : Option (List (String × String)))
    (body : Option REQ) (w : World REQ RES)
    (e : Error) (hp : env.Parse w.h.Url = .error e) : Post env headers body w = .panicked .nilDereference w := by
  simp [Post, bind, Go.bind, NewRequest_bad_url env MethodPost headers body w e hp]

theorem Get_client (env : Env REQ) (headers : Option (List (String × String))) (w : World REQ RES)
    (u : URL) (cert : Certificate) (hu : env.Parse w.h.Url = .ok u)
    (hc : w.h.clientPair = some cert) :
    (Get env headers w).st.h.client =
        some (builtClient (u.Scheme ++ "://" ++ u.Host) cert w.h.rootCAs) ∧
    (Get env headers w).st.events =
      w.events ++ [.clientDo (builtClient (u.Scheme ++ "://" ++ u.Host) cert w.h.rootCAs)
        (builtRequest "GET" u (headers.getD []) none)] := by
  rw [Get_run env headers w u cert hu hc]
  simp only []
  cases env.Do _ _ <;> exact ⟨rfl, rfl⟩

theorem Post_client (env : Env REQ) (headers : Option (List (String × String))) (b : REQ)
    (w : World REQ RES) (u : URL) (cert : Certificate) (hu : env.Parse w.h.Url = .ok u)
    (hc : w.h.clientPair = some cert) :
    (Post env headers (some b) w).st.h.client =
      some (builtClient (u.Scheme ++ "://" ++ u.Host) cert w.h.rootCAs) := by
  cases headers with
  | none =>
    simp [Post, NewRequest, getDomain, bind, Go.bind, getH, setH, modifyWorld, deref, pure, hu,
      hc, httpNewRequest, MethodPost, validMethod, isTokenChar, goPanic, builtClient, Outcome.st]
  | some hs =>
    rw [Post_run env hs b w u cert hu hc]
    simp only []
    cases env.Do _ _ <;> rfl

theorem Post_events (env : Env REQ) (hs : List (String × String)) (b : REQ)
    (w : World REQ RES) (u : URL) (cert : Certificate) (hu : env.Parse w.h.Url = .ok u)
    (hc : w.h.clientPair = some cert) :
    ∃ tl, (Post env (some hs) (some b) w).st.events =
      w.events ++ .clientDo (builtClient (u.Scheme ++ "://" ++ u.Host) cert w.h.rootCAs)
        (builtRequest "POST" u hs (some (goResult "" (env.Marshal b)).1)) :: tl := by
  rw [Post_run env hs b w u cert hu hc]
  simp only []
  cases env.Do _ _
  · exact ⟨[], rfl⟩
  · exact ⟨[.bodyClose], by simp [Outcome.st]⟩

theorem mem_AddCert (s : CertPool) (c x : String) :
    x ∈ (s.AddCert c).certs ↔ x ∈ s.certs ∨ x = c := by
  unfold CertPool.AddCert
  by_cases h : c ∈ s.certs
  · simp only [h, if_true]
    constructor
    · exact Or.inl
    · rintro (h1 | h1)
      · exact h1
      · exact h1 ▸ h
  · simp [h]

theorem AddCert_extends (s : CertPool) (c : String) : s.certs <+: (s.AddCert c).certs := by
  unfold CertPool.AddCert
  by_cases h : c ∈ s.certs
  · simp [h]
  · simp [h]

theorem mem_foldl_AddCert (found : List String) (s : CertPool) (x : String) :
    x ∈ (found.foldl CertPool.AddCert s).certs ↔ x ∈ s.certs ∨ x ∈ found := by
  induction found generalizing s with
  | nil => simp
  | cons c t ih =>
    rw [List.foldl_cons, ih, mem_AddCert, List.mem_cons]
    tauto

theorem foldl_AddCert_extends (found : List String) (s : CertPool) :
    s.certs <+: (found.foldl CertPool.AddCert s).certs := by
  induction found generalizing s with
  | nil => exact List.prefix_refl _
  | cons c t ih =>
    rw [List.foldl_cons]
    exact (AddCert_extends s c).trans (ih _)

theorem readyWorld_eq :
    readyWorld =
      ⟨{ mainWorld.h with rootCAs := some ⟨["system-root", "test-ca"]⟩,
                          clientPair := some demoPair },
       [.readFile "../certs/ca.crt",
        .loadX509KeyPair "../certs/client.crt" "../certs/client.key"]⟩ := by
  unfold readyWorld
  rw [SetCerts_eq, SetRootCA_readable demoEnv "../certs/ca.crt" mainWorld caPEM rfl]
  simp only []
  rw [SetClientPair_loads demoEnv "../certs/client.crt" "../certs/client.key" _ demoPair rfl]
  rfl

/-! ## Claims -/

/-- C1 (as stated, refuted): on a client whose host does not answer, the round
trip fails and `Get` does not return a nil response with an error: it panics
with the transport error. -/
theorem C1_transport_failure_not_returned :
    (∃ st, Get demoEnv none downWorld =
      .panicked (.error "dial tcp: lookup nowhere.invalid: no such host") st) ∧
    ¬ ∃ e st, Get demoEnv none downWorld = .returned (none, some e) st := by
  have h := Get_run demoEnv none downWorld
    ⟨"https", "", "", "nowhere.invalid", "/health", "", ""⟩ demoPair rfl rfl
  have hd : demoEnv.Do
      (builtClient ("https" ++ "://" ++ "nowhere.invalid") demoPair downWorld.h.rootCAs)
      (builtRequest "GET" ⟨"https", "", "", "nowhere.invalid", "/health", "", ""⟩ [] none) =
      .error "dial tcp: lookup nowhere.invalid: no such host" := rfl
  simp only [Option.getD, hd] at h
  refine ⟨⟨_, h⟩, ?_⟩
  rintro ⟨e, st, he⟩
  rw [h] at he
  cases he

/-- C1 (amended): when the round trip of the built request fails, `Get` and
`Post` do not return: each panics with the transport error as panic value. -/
theorem C1_transport_failure_panics {REQ RES : Type} (env : Env REQ)
    (headers : Option (List (String × String))) (hs : List (String × String)) (b : REQ)
    (w : World REQ RES) (u : URL) (cert : Certificate) (e1 e2 : Error)
    (hu : env.Parse w.h.Url = .ok u) (hc : w.h.clientPair = some cert)
    (hg : env.Do (builtClient (u.Scheme ++ "://" ++ u.Host) cert w.h.rootCAs)
      (builtRequest "GET" u (headers.getD []) none) = .error e1)
    (hp : env.Do (builtClient (u.Scheme ++ "://" ++ u.Host) cert w.h.rootCAs)
      (builtRequest "POST" u hs (some (goResult "" (env.Marshal b)).1)) = .error e2) :
    (∃ st, Get env headers w = .panicked (.error e1) st) ∧
    (∃ st, Post env (some hs) (some b) w = .panicked (.error e2) st) ∧
    (Get env headers w).isReturned = false ∧
    (Post env (some hs) (some b) w).isReturned = false := by
  have h1 := Get_run env headers w u cert hu hc
  have h2 := Post_run env hs b w u cert hu hc
  simp only [hg] at h1
  simp only [hp] at h2
  exact ⟨⟨_, h1⟩, ⟨_, h2⟩, by rw [h1]; rfl, by rw [h2]; rfl⟩

/-- C1 (amended), at the client whose host does not answer. -/
theorem C1_transport_failure_panics_witness :
    demoEnv.Parse downWorld.h.Url =
      .ok ⟨"https", "", "", "nowhere.invalid", "/health", "", ""⟩ ∧
    downWorld.h.clientPair = some demoPair ∧
    demoEnv.Do (builtClient ("https" ++ "://" ++ "nowhere.invalid") demoPair downWorld.h.rootCAs)
      (builtRequest "GET" ⟨"https", "", "", "nowhere.invalid", "/health", "", ""⟩ [] none) =
      .error "dial tcp: lookup nowhere.invalid: no such host" ∧
    demoEnv.Do (builtClient ("https" ++ "://" ++ "nowhere.invalid") demoPair downWorld.h.rootCAs)
      (builtRequest "POST" ⟨"https", "", "", "nowhere.invalid", "/health", "", ""⟩ []
        (some (goResult "" (demoEnv.Marshal "x")).1)) =
      .error "dial tcp: lookup nowhere.invalid: no such host" ∧
    (∃ st, Get demoEnv none downWorld =
      .panicked (.error "dial tcp: lookup nowhere.invalid: no such host") st) ∧
    (∃ st, Post demoEnv (some []) (some "x") downWorld =
      .panicked (.error "dial tcp: lookup nowhere.invalid: no such host") st) ∧
    (Get demoEnv none downWorld).isReturned = false ∧
    (Post demoEnv (some []) (some "x") downWorld).isReturned = false :=
  ⟨rfl, rfl, rfl, rfl,
    C1_transport_failure_panics demoEnv none [] "x" downWorld
      ⟨"https", "", "", "nowhere.invalid", "/health", "", ""⟩ demoPair _ _ rfl rfl rfl rfl⟩

/-- C2 (the code at the failing input): on the client fresh from `NewHTTP`, and
on the client on which only `SetRootCA` was called, `Get` and `Post` dereference
the absent identity and panic; no error is returned. -/
theorem C2_missing_identity_panics :
    Get demoEnv none mainWorld = .panicked .nilDereference mainWorld ∧
    Post demoEnv (some []) (some "x") mainWorld = .panicked .nilDereference mainWorld ∧
    ∃ pool w1, SetRootCA demoEnv "../certs/ca.crt" mainWorld = .returned (some pool, none) w1 ∧
      w1.h.clientPair = none ∧
      Get demoEnv none w1 = .panicked .nilDereference w1 ∧
      Post demoEnv (some []) (some "x") w1 = .panicked .nilDereference w1 := by
  refine ⟨Get_no_identity _ _ _ rfl, Post_no_identity _ _ _ _ rfl, _, _,
    SetRootCA_readable demoEnv "../certs/ca.crt" mainWorld caPEM rfl, rfl,
    Get_no_identity _ _ _ rfl, Post_no_identity _ _ _ _ rfl⟩

/-- C3 (the code at the failing input): `SetRootCA` on a path that cannot be read
ends the process with exit code 1 after `log.Fatalf`; it returns nothing, and
the client record, its earlier trust store included, is as before. -/
theorem C3_unreadable_ca_exits :
    SetRootCA demoEnv "../certs/missing.crt" trustedWorld =
      .exited 1 ⟨trustedWorld.h,
        [.readFile "../certs/missing.crt",
         .logFatalf ("failed to append \x22ca.crt\x22 to RootCAs: " ++
           "open ../certs/missing.crt: no such file or directory")]⟩ ∧
    (SetRootCA demoEnv "../certs/missing.crt" trustedWorld).isReturned = false ∧
    (SetRootCA demoEnv "../certs/missing.crt" trustedWorld).st.h.rootCAs =
      some ⟨["old-root"]⟩ := by
  have h := SetRootCA_unreadable demoEnv "../certs/missing.crt" trustedWorld
    "open ../certs/missing.crt: no such file or directory" rfl
  refine ⟨h, by rw [h]; rfl, by rw [h]; rfl⟩

/-- C4 (the code at the failing input): `SetClientPair` on a certificate and key
that do not load ends the process with exit code 1 after `log.Fatalf` and
returns no error; on the pair that loads it returns the identity with a nil
error and stores it. -/
theorem C4_bad_pair_exits :
    SetClientPair demoEnv "../certs/client.crt" "../certs/other.key" mainWorld =
      .exited 1 ⟨mainWorld.h,
        [.loadX509KeyPair "../certs/client.crt" "../certs/other.key",
         .logFatalf ("Error opening cert file ../certs/client.crt and key ../certs/other.key" ++
           ", Error: tls: private key does not match public key")]⟩ ∧
    (SetClientPair demoEnv "../certs/client.crt" "../certs/other.key" mainWorld).isReturned
      = false ∧
    ∃ w1, SetClientPair demoEnv "../certs/client.crt" "../certs/client.key" mainWorld =
        .returned (some demoPair, none) w1 ∧
      w1.h.clientPair = some demoPair := by
  have h := SetClientPair_fails demoEnv "../certs/client.crt" "../certs/other.key" mainWorld
    "tls: private key does not match public key" rfl
  refine ⟨h, by rw [h]; rfl, _,
    SetClientPair_loads demoEnv "../certs/client.crt" "../certs/client.key" mainWorld demoPair rfl,
    rfl⟩

/-- C5 (the code at the failing inputs): with a CA path that cannot be read,
`SetCerts` returns no error: the process exits inside `SetRootCA`, the key pair
is never loaded and the client record is as before.  With a readable CA file
and a pair that does not load, the process exits inside `SetClientPair`, the
trust store being the one `SetRootCA` stored.  With all three files in place
`SetCerts` returns nil. -/
theorem C5_set_certs_exits :
    SetCerts demoEnv "../certs/missing.crt" "../certs/client.crt" "../certs/client.key"
        trustedWorld =
      .exited 1 ⟨trustedWorld.h,
        [.readFile "../certs/missing.crt",
         .logFatalf ("failed to append \x22ca.crt\x22 to RootCAs: " ++
           "open ../certs/missing.crt: no such file or directory")]⟩ ∧
    SetCerts demoEnv "../certs/ca.crt" "../certs/client.crt" "../certs/other.key" mainWorld =
      .exited 1 ⟨{ mainWorld.h with rootCAs := some ⟨["system-root", "test-ca"]⟩ },
        [.readFile "../certs/ca.crt",
         .loadX509KeyPair "../certs/client.crt" "../certs/other.key",
         .logFatalf ("Error opening cert file ../certs/client.crt and key ../certs/other.key" ++
           ", Error: tls: private key does not match public key")]⟩ ∧
    SetCerts demoEnv "../certs/ca.crt" "../certs/client.crt" "../certs/client.key" mainWorld =
      .returned none
        ⟨{ mainWorld.h with rootCAs := some ⟨["system-root", "test-ca"]⟩,
                            clientPair := some demoPair },
         [.readFile "../certs/ca.crt",
          .loadX509KeyPair "../certs/client.crt" "../certs/client.key"]⟩ := by
  refine ⟨?_, ?_, ?_⟩
  · rw [SetCerts_eq, SetRootCA_unreadable demoEnv "../certs/missing.crt" trustedWorld
      "open ../certs/missing.crt: no such file or directory" rfl]
    rfl
  · rw [SetCerts_eq, SetRootCA_readable demoEnv "../certs/ca.crt" mainWorld caPEM rfl]
    simp only []
    rw [SetClientPair_fails demoEnv "../certs/client.crt" "../certs/other.key" _
      "tls: private key does not match public key" rfl]
    rfl
  · rw [SetCerts_eq, SetRootCA_readable demoEnv "../certs/ca.crt" mainWorld caPEM rfl]
    simp only []
    rw [SetClientPair_loads demoEnv "../certs/client.crt" "../certs/client.key" _ demoPair rfl]
    rfl

/-- C6 (as stated, refuted): for the target of `main.go` the server name that
`Get` puts in the TLS configuration is the scheme, `://` and the host; it is not
the host of the URL. -/
theorem C6_server_name_has_scheme :
    demoEnv.Parse "https://localhost:8080/health" =
      .ok ⟨"https", "", "", "localhost:8080", "/health", "", ""⟩ ∧
    (Get demoEnv none readyWorld).st.h.client.map
        (fun c => c.Transport.TLSClientConfig.ServerName) = some "https://localhost:8080" ∧
    (Get demoEnv none readyWorld).st.h.client.map
        (fun c => c.Transport.TLSClientConfig.ServerName) ≠ some "localhost:8080" := by
  have h := Get_run demoEnv none readyWorld
    ⟨"https", "", "", "localhost:8080", "/health", "", ""⟩ demoPair
    (by rw [readyWorld_eq]; rfl) (by rw [readyWorld_eq])
  have hd : demoEnv.Do
      (builtClient ("https" ++ "://" ++ "localhost:8080") demoPair readyWorld.h.rootCAs)
      (builtRequest "GET" ⟨"https", "", "", "localhost:8080", "/health", "", ""⟩ [] none) =
      .ok demoResponse := rfl
  simp only [Option.getD, hd] at h
  refine ⟨rfl, ?_, ?_⟩
  · rw [h]; rfl
  · rw [h]; decide

/-- C6 (amended): for a client with an identity whose target URL parses, the
server name in the TLS configuration built by `Get`, and by `NewRequest` (hence
`Post`) on a present body, is the scheme of the URL, `://`, and its host. -/
theorem C6_server_name_is_scheme_and_host {REQ RES : Type} (env : Env REQ)
    (headers : Option (List (String × String))) (method : String) (b : REQ)
    (w : World REQ RES) (u : URL) (cert : Certificate)
    (hu : env.Parse w.h.Url = .ok u) (hc : w.h.clientPair = some cert) :
    (Get env headers w).st.h.client.map (fun c => c.Transport.TLSClientConfig.ServerName) =
      some (u.Scheme ++ "://" ++ u.Host) ∧
    (NewRequest env method headers (some b) w).st.h.client.map
        (fun c => c.Transport.TLSClientConfig.ServerName) =
      some (u.Scheme ++ "://" ++ u.Host) ∧
    (Post env headers (some b) w).st.h.client.map
        (fun c => c.Transport.TLSClientConfig.ServerName) =
      some (u.Scheme ++ "://" ++ u.Host) := by
  obtain ⟨h1, _⟩ := Get_client env headers w u cert hu hc
  obtain ⟨h2, _⟩ := NewRequest_client env method headers b w u cert hu hc
  have h3 := Post_client env headers b w u cert hu hc
  rw [h1, h2, h3]
  exact ⟨rfl, rfl, rfl⟩

/-- C6 (amended), at the client of `main.go` with its credentials stored. -/
theorem C6_server_name_is_scheme_and_host_witness :
    demoEnv.Parse readyWorld.h.Url =
      .ok ⟨"https", "", "", "localhost:8080", "/health", "", ""⟩ ∧
    readyWorld.h.clientPair = some demoPair ∧
    (Get demoEnv none readyWorld).st.h.client.map
        (fun c => c.Transport.TLSClientConfig.ServerName) =
      some ("https" ++ "://" ++ "localhost:8080") ∧
    (NewRequest demoEnv "POST" none (some "x") readyWorld).st.h.client.map
        (fun c => c.Transport.TLSClientConfig.ServerName) =
      some ("https" ++ "://" ++ "localhost:8080") ∧
    (Post demoEnv none (some "x") readyWorld).st.h.client.map
        (fun c => c.Transport.TLSClientConfig.ServerName) =
      some ("https" ++ "://" ++ "localhost:8080") :=
  ⟨by rw [readyWorld_eq]; rfl, by rw [readyWorld_eq],
    C6_server_name_is_scheme_and_host demoEnv none "POST" "x" readyWorld
      ⟨"https", "", "", "localhost:8080", "/health", "", ""⟩ demoPair
      (by rw [readyWorld_eq]; rfl) (by rw [readyWorld_eq])⟩

/-- C7 (the code at the failing input): on a client with an identity set whose
target `url.Parse` rejects, `Get` and `Post` build no transport: `getDomain`
drops the parse error and dereferences the nil URL, so the call panics with the
client record and the trace untouched, although `http.NewRequest` reports the
same target with an error that `Get` and `NewRequest` are written to return. -/
theorem C7_unparsable_target_builds_nothing :
    badUrlWorld.h.clientPair = some demoPair ∧
    (∃ e, demoEnv.Parse badUrlWorld.h.Url = .error e) ∧
    Get demoEnv none badUrlWorld = .panicked .nilDereference badUrlWorld ∧
    (Get demoEnv none badUrlWorld).st.h.client = none ∧
    (Get demoEnv none badUrlWorld).st.events = [] ∧
    Post demoEnv (some []) (some "x") badUrlWorld = .panicked .nilDereference badUrlWorld ∧
    (Post demoEnv (some []) (some "x") badUrlWorld).st.h.client = none ∧
    httpNewRequest demoEnv MethodGet badUrlWorld.h.Url none =
      (none, some "parse \x22:\x22: missing protocol scheme") := by
  have h := Get_bad_url demoEnv none badUrlWorld "parse \x22:\x22: missing protocol scheme" rfl
  have hp := Post_bad_url demoEnv (some []) (some "x") badUrlWorld
    "parse \x22:\x22: missing protocol scheme" rfl
  refine ⟨rfl, ⟨_, rfl⟩, h, by rw [h]; rfl, by rw [h]; rfl, hp, by rw [hp]; rfl, rfl⟩

/-- Where the target URL parses, a client with an identity set behaves as the
invariant on fresh transports asks:
`Get`, `NewRequest` and `Post` (on a present body) each build a client whose TLS
configuration presents exactly the current identity and the current trust
store; the client and request left by earlier calls play no part; and the call
that follows a successful `SetClientPair` or `SetRootCA` uses the new value. -/
theorem fresh_transport_uses_current_credentials {REQ RES : Type} (env : Env REQ)
    (headers : Option (List (String × String))) (method : String) (b : REQ)
    (w : World REQ RES) (u : URL) (cert : Certificate)
    (hu : env.Parse w.h.Url = .ok u) (hc : w.h.clientPair = some cert) :
    (∃ c r, (Get env headers w).st.h.client = some c ∧
      (Get env headers w).st.events = w.events ++ [.clientDo c r] ∧
      c.Transport.TLSClientConfig.Certificates = [cert] ∧
      c.Transport.TLSClientConfig.RootCAs = w.h.rootCAs) ∧
    (∃ c, (NewRequest env method headers (some b) w).st.h.client = some c ∧
      c.Transport.TLSClientConfig.Certificates = [cert] ∧
      c.Transport.TLSClientConfig.RootCAs = w.h.rootCAs) ∧
    (∃ c, (Post env headers (some b) w).st.h.client = some c ∧
      c.Transport.TLSClientConfig.Certificates = [cert] ∧
      c.Transport.TLSClientConfig.RootCAs = w.h.rootCAs) ∧
    (∀ (oc : Option Client) (oreq : Option Request),
      (Get env headers ⟨{ w.h with client := oc, req := oreq }, w.events⟩).st.h.client =
        (Get env headers w).st.h.client ∧
      (Post env headers (some b) ⟨{ w.h with client := oc, req := oreq }, w.events⟩).st.h.client =
        (Post env headers (some b) w).st.h.client) ∧
    (∀ (cp kp : String) (cert2 : Certificate), env.LoadX509KeyPair cp kp = .ok cert2 →
      ∃ w2 c, SetClientPair env cp kp w = .returned (some cert2, none) w2 ∧
        (Get env headers w2).st.h.client = some c ∧
        c.Transport.TLSClientConfig.Certificates = [cert2] ∧
        c.Transport.TLSClientConfig.RootCAs = w.h.rootCAs) ∧
    (∀ (ca : String) (data : Bytes), env.ReadFile ca = .ok data →
      ∃ pool w2 c, SetRootCA env ca w = .returned (some pool, none) w2 ∧
        (Get env headers w2).st.h.client = some c ∧
        c.Transport.TLSClientConfig.Certificates = [cert] ∧
        c.Transport.TLSClientConfig.RootCAs = some pool) := by
  obtain ⟨h1, h1e⟩ := Get_client env headers w u cert hu hc
  obtain ⟨h2, _⟩ := NewRequest_client env method headers b w u cert hu hc
  have h3 := Post_client env headers b w u cert hu hc
  refine ⟨⟨_, _, h1, h1e, rfl, rfl⟩, ⟨_, h2, rfl, rfl⟩, ⟨_, h3, rfl, rfl⟩, ?_, ?_, ?_⟩
  · intro oc oreq
    have g1 := (Get_client env headers ⟨{ w.h with client := oc, req := oreq }, w.events⟩
      u cert hu hc).1
    have g3 := Post_client env headers b ⟨{ w.h with client := oc, req := oreq }, w.events⟩
      u cert hu hc
    rw [g1, g3, h1, h3]
    exact ⟨rfl, rfl⟩
  · intro cp kp cert2 hl
    have hs := SetClientPair_loads env cp kp w cert2 hl
    have hg := (Get_client env headers
      ⟨{ w.h with clientPair := some cert2 }, w.events ++ [.loadX509KeyPair cp kp]⟩
      u cert2 hu rfl).1
    exact ⟨_, _, hs, hg, rfl, rfl⟩
  · intro ca data hr
    have hs := SetRootCA_readable env ca w data hr
    have hg := (Get_client env headers
      ⟨{ w.h with rootCAs := some ((basePool env).AppendCertsFromPEM (env.pemCerts data)).1 },
        w.events ++ .readFile ca ::
          (if (env.pemCerts data).isEmpty then
            [.logPrintln "no certs appended, using system certs only"] else [])⟩
      u cert hu hc).1
    exact ⟨_, _, _, hs, hg, rfl, rfl⟩

/-- C8 (as stated, refuted): given the two-entry mapping with keys `a` and `A`,
the request `Get` hands to the transport has the single header key `A` with
both values: neither given key carries exactly its one given value. -/
theorem C8_header_keys_merge :
    ∃ c r, (Get demoEnv (some [("a", "1"), ("A", "2")]) readyWorld).st.events =
        readyWorld.events ++ [.clientDo c r] ∧
      r.Header = [("A", ["1", "2"])] ∧
      Header.index r.Header "a" = [] ∧
      Header.index r.Header "A" ≠ ["2"] ∧
      Header.index r.Header (CanonicalMIMEHeaderKey "a") ≠ ["1"] := by
  have h := (Get_client demoEnv (some [("a", "1"), ("A", "2")]) readyWorld
    ⟨"https", "", "", "localhost:8080", "/health", "", ""⟩ demoPair
    (by rw [readyWorld_eq]; rfl) (by rw [readyWorld_eq])).2
  refine ⟨_, _, h, ?_, ?_, ?_, ?_⟩
  · decide
  · decide
  · decide
  · decide

/-- C8 (amended): for a client with an identity set whose target URL parses,
the request handed to the transport by `Get` has method GET, the parsed target
as URL and no body, and by `Post` (present mapping, present body that
serializes) method POST, the same URL and the serialized body; its header map
holds, under the canonical MIME form of each given key, exactly the one given
value when no two given keys share a canonical form, and no other key; an
absent mapping gives `Get` an empty header map. -/
theorem C8_request_handed_to_transport {REQ RES : Type} (env : Env REQ)
    (hs : List (String × String)) (b : REQ) (payload : Bytes)
    (w : World REQ RES) (u : URL) (cert : Certificate)
    (hu : env.Parse w.h.Url = .ok u) (hc : w.h.clientPair = some cert)
    (hnd : (hs.map fun kv => CanonicalMIMEHeaderKey kv.1).Nodup)
    (hm : env.Marshal b = .ok payload) :
    (∃ c r, (Get env (some hs) w).st.events = w.events ++ [.clientDo c r] ∧
      r.Method = "GET" ∧ r.URL = { u with Host := removeEmptyPort u.Host } ∧ r.Body = none ∧
      (∀ kv ∈ hs, Header.index r.Header (CanonicalMIMEHeaderKey kv.1) = [kv.2]) ∧
      (∀ p ∈ r.Header, ∃ kv ∈ hs, p.1 = CanonicalMIMEHeaderKey kv.1)) ∧
    (∃ c r, (Get env none w).st.events = w.events ++ [.clientDo c r] ∧
      r.Method = "GET" ∧ r.URL = { u with Host := removeEmptyPort u.Host } ∧ r.Body = none ∧
      r.Header = []) ∧
    (∃ c r tl, (Post env (some hs) (some b) w).st.events = w.events ++ .clientDo c r :: tl ∧
      r.Method = "POST" ∧ r.URL = { u with Host := removeEmptyPort u.Host } ∧
      r.Body = some payload ∧
      (∀ kv ∈ hs, Header.index r.Header (CanonicalMIMEHeaderKey kv.1) = [kv.2]) ∧
      (∀ p ∈ r.Header, ∃ kv ∈ hs, p.1 = CanonicalMIMEHeaderKey kv.1)) := by
  have hidx : ∀ kv ∈ hs,
      Header.index (addHeaders [] hs) (CanonicalMIMEHeaderKey kv.1) = [kv.2] := by
    intro kv hkv
    rw [index_addHeaders, filter_canon_single hs hnd kv hkv]
    rfl
  have hkeys : ∀ p ∈ addHeaders [] hs, ∃ kv ∈ hs, p.1 = CanonicalMIMEHeaderKey kv.1 := by
    intro p hp
    rcases keys_addHeaders hs [] p hp with ⟨q, hq, _⟩ | h
    · cases hq
    · exact h
  have g1 := (Get_client env (some hs) w u cert hu hc).2
  have g2 := (Get_client env none w u cert hu hc).2
  obtain ⟨tl, g3⟩ := Post_events env hs b w u cert hu hc
  refine ⟨⟨_, _, g1, rfl, rfl, rfl, hidx, hkeys⟩, ⟨_, _, g2, rfl, rfl, rfl, rfl⟩,
    ⟨_, _, tl, g3, rfl, rfl, ?_, hidx, hkeys⟩⟩
  simp [builtRequest, hm, goResult]

/-- C9: when the round trip succeeds, the response `Post` returns has its body
closed, so that reading it yields no data and an error, while `Get` returns the
response of the transport as it is, without closing or reading its body: an
open body stays open and yields all its data. -/
theorem C9_post_body_closed_get_body_open {REQ RES : Type} (env : Env REQ)
    (headers : Option (List (String × String))) (hs : List (String × String)) (b : REQ)
    (w : World REQ RES) (u : URL) (cert : Certificate) (resp1 resp2 : Response)
    (hu : env.Parse w.h.Url = .ok u) (hc : w.h.clientPair = some cert)
    (hg : env.Do (builtClient (u.Scheme ++ "://" ++ u.Host) cert w.h.rootCAs)
      (builtRequest "GET" u (headers.getD []) none) = .ok resp1)
    (hp : env.Do (builtClient (u.Scheme ++ "://" ++ u.Host) cert w.h.rootCAs)
      (builtRequest "POST" u hs (some (goResult "" (env.Marshal b)).1)) = .ok resp2)
    (hopen : resp1.Body.closed = false) :
    (∃ r st, Post env (some hs) (some b) w = .returned (some r, none) st ∧
      r.Body.closed = true ∧ r.Body.ReadAll.1 = "" ∧ r.Body.ReadAll.2 ≠ none ∧
      r.StatusCode = resp2.StatusCode ∧ r.Header = resp2.Header ∧
      st.events.getLast? = some .bodyClose) ∧
    (∃ r st, Get env headers w = .returned (some r, none) st ∧
      r = resp1 ∧ r.Body.closed = false ∧ r.Body.ReadAll = (resp1.Body.data, none) ∧
      st.events = w.events ++ [.clientDo (builtClient (u.Scheme ++ "://" ++ u.Host) cert
        w.h.rootCAs) (builtRequest "GET" u (headers.getD []) none)]) := by
  have h1 := Get_run env headers w u cert hu hc
  have h2 := Post_run env hs b w u cert hu hc
  simp only [hg] at h1
  simp only [hp] at h2
  refine ⟨⟨_, _, h2, rfl, ?_, ?_, rfl, rfl, ?_⟩, ⟨_, _, h1, rfl, hopen, ?_, rfl⟩⟩
  · simp [Body.ReadAll, Body.Close]
  · simp [Body.ReadAll, Body.Close]
  · simp
  · simp [Body.ReadAll, hopen]

/-- C10: when the file can be read, `SetRootCA` returns a pool with a nil error
and stores that same pool on the client; the pool begins with the platform
store (an empty pool when that is unavailable), holds besides it exactly the
certificates found in the file, and is the platform store itself when the file
holds no valid certificate. -/
theorem C10_readable_ca_stores_pool {REQ RES : Type} (env : Env REQ) (caCertPath : String)
    (data : Bytes) (w : World REQ RES) (hr : env.ReadFile caCertPath = .ok data) :
    ∃ pool st, SetRootCA env caCertPath w = .returned (some pool, none) st ∧
      st.h.rootCAs = some pool ∧
      (basePool env).certs <+: pool.certs ∧
      (∀ x, x ∈ pool.certs ↔ x ∈ (basePool env).certs ∨ x ∈ env.pemCerts data) ∧
      (env.SystemCertPool = none → basePool env = ⟨[]⟩) ∧
      (∀ p, env.SystemCertPool = some p → basePool env = p) ∧
      (env.pemCerts data = [] → pool = basePool env ∧
        st.events = w.events ++
          [.readFile caCertPath, .logPrintln "no certs appended, using system certs only"]) := by
  refine ⟨_, _, SetRootCA_readable env caCertPath w data hr, rfl, ?_, ?_, ?_, ?_, ?_⟩
  · exact foldl_AddCert_extends _ _
  · intro x
    exact mem_foldl_AddCert _ _ x
  · intro h
    simp [basePool, h, NewCertPool]
  · intro p h
    simp [basePool, h]
  · intro h
    simp [h, CertPool.AppendCertsFromPEM]

/-- The fresh-transport invariant at the client of `main.go` with its credentials stored. -/
theorem fresh_transport_at_main :
    demoEnv.Parse readyWorld.h.Url =
      .ok ⟨"https", "", "", "localhost:8080", "/health", "", ""⟩ ∧
    readyWorld.h.clientPair = some demoPair ∧
    (∃ c r, (Get demoEnv none readyWorld).st.h.client = some c ∧
      (Get demoEnv none readyWorld).st.events = readyWorld.events ++ [.clientDo c r] ∧
      c.Transport.TLSClientConfig.Certificates = [demoPair] ∧
      c.Transport.TLSClientConfig.RootCAs = readyWorld.h.rootCAs) ∧
    (∃ c, (NewRequest demoEnv "POST" none (some "x") readyWorld).st.h.client = some c ∧
      c.Transport.TLSClientConfig.Certificates = [demoPair] ∧
      c.Transport.TLSClientConfig.RootCAs = readyWorld.h.rootCAs) ∧
    (∃ c, (Post demoEnv none (some "x") readyWorld).st.h.client = some c ∧
      c.Transport.TLSClientConfig.Certificates = [demoPair] ∧
      c.Transport.TLSClientConfig.RootCAs = readyWorld.h.rootCAs) ∧
    (∀ (oc : Option Client) (oreq : Option Request),
      (Get demoEnv none
          ⟨{ readyWorld.h with client := oc, req := oreq }, readyWorld.events⟩).st.h.client =
        (Get demoEnv none readyWorld).st.h.client ∧
      (Post demoEnv none (some "x")
          ⟨{ readyWorld.h with client := oc, req := oreq }, readyWorld.events⟩).st.h.client =
        (Post demoEnv none (some "x") readyWorld).st.h.client) ∧
    (∀ (cp kp : String) (cert2 : Certificate), demoEnv.LoadX509KeyPair cp kp = .ok cert2 →
      ∃ w2 c, SetClientPair demoEnv cp kp readyWorld = .returned (some cert2, none) w2 ∧
        (Get demoEnv none w2).st.h.client = some c ∧
        c.Transport.TLSClientConfig.Certificates = [cert2] ∧
        c.Transport.TLSClientConfig.RootCAs = readyWorld.h.rootCAs) ∧
    (∀ (ca : String) (data : Bytes), demoEnv.ReadFile ca = .ok data →
      ∃ pool w2 c, SetRootCA demoEnv ca readyWorld = .returned (some pool, none) w2 ∧
        (Get demoEnv none w2).st.h.client = some c ∧
        c.Transport.TLSClientConfig.Certificates = [demoPair] ∧
        c.Transport.TLSClientConfig.RootCAs = some pool) :=
  ⟨by rw [readyWorld_eq]; rfl, by rw [readyWorld_eq],
    fresh_transport_uses_current_credentials demoEnv none "POST" "x" readyWorld
      ⟨"https", "", "", "localhost:8080", "/health", "", ""⟩ demoPair
      (by rw [readyWorld_eq]; rfl) (by rw [readyWorld_eq])⟩

/-- C8 (amended), at the client of `main.go` with two headers and the body `ping`. -/
theorem C8_request_handed_to_transport_witness :
    demoEnv.Parse readyWorld.h.Url =
      .ok ⟨"https", "", "", "localhost:8080", "/health", "", ""⟩ ∧
    readyWorld.h.clientPair = some demoPair ∧
    ([("x-token", "t1"), ("accept", "application/json")].map
      fun kv => CanonicalMIMEHeaderKey kv.1).Nodup ∧
    demoEnv.Marshal "ping" = .ok "\x22ping\x22" ∧
    (∃ c r, (Get demoEnv (some [("x-token", "t1"), ("accept", "application/json")])
        readyWorld).st.events = readyWorld.events ++ [.clientDo c r] ∧
      r.Method = "GET" ∧
      r.URL = { (⟨"https", "", "", "localhost:8080", "/health", "", ""⟩ : URL) with
        Host := removeEmptyPort "localhost:8080" } ∧
      r.Body = none ∧
      (∀ kv ∈ [("x-token", "t1"), ("accept", "application/json")],
        Header.index r.Header (CanonicalMIMEHeaderKey kv.1) = [kv.2]) ∧
      (∀ p ∈ r.Header, ∃ kv ∈ [("x-token", "t1"), ("accept", "application/json")],
        p.1 = CanonicalMIMEHeaderKey kv.1)) ∧
    (∃ c r, (Get demoEnv none readyWorld).st.events = readyWorld.events ++ [.clientDo c r] ∧
      r.Method = "GET" ∧
      r.URL = { (⟨"https", "", "", "localhost:8080", "/health", "", ""⟩ : URL) with
        Host := removeEmptyPort "localhost:8080" } ∧
      r.Body = none ∧ r.Header = []) ∧
    (∃ c r tl, (Post demoEnv (some [("x-token", "t1"), ("accept", "application/json")])
        (some "ping") readyWorld).st.events = readyWorld.events ++ .clientDo c r :: tl ∧
      r.Method = "POST" ∧
      r.URL = { (⟨"https", "", "", "localhost:8080", "/health", "", ""⟩ : URL) with
        Host := removeEmptyPort "localhost:8080" } ∧
      r.Body = some "\x22ping\x22" ∧
      (∀ kv ∈ [("x-token", "t1"), ("accept", "application/json")],
        Header.index r.Header (CanonicalMIMEHeaderKey kv.1) = [kv.2]) ∧
      (∀ p ∈ r.Header, ∃ kv ∈ [("x-token", "t1"), ("accept", "application/json")],
        p.1 = CanonicalMIMEHeaderKey kv.1)) :=
  ⟨by rw [readyWorld_eq]; rfl, by rw [readyWorld_eq], by decide, rfl,
    C8_request_handed_to_transport demoEnv [("x-token", "t1"), ("accept", "application/json")]
      "ping" "\x22ping\x22" readyWorld
      ⟨"https", "", "", "localhost:8080", "/health", "", ""⟩ demoPair
      (by rw [readyWorld_eq]; rfl) (by rw [readyWorld_eq]) (by decide) rfl⟩

/-- C9, at the client of `main.go` against the demonstration server. -/
theorem C9_post_body_closed_get_body_open_witness :
    demoEnv.Parse readyWorld.h.Url =
      .ok ⟨"https", "", "", "localhost:8080", "/health", "", ""⟩ ∧
    readyWorld.h.clientPair = some demoPair ∧
    demoEnv.Do (builtClient ("https" ++ "://" ++ "localhost:8080") demoPair readyWorld.h.rootCAs)
      (builtRequest "GET" ⟨"https", "", "", "localhost:8080", "/health", "", ""⟩ [] none) =
      .ok demoResponse ∧
    demoEnv.Do (builtClient ("https" ++ "://" ++ "localhost:8080") demoPair readyWorld.h.rootCAs)
      (builtRequest "POST" ⟨"https", "", "", "localhost:8080", "/health", "", ""⟩ []
        (some (goResult "" (demoEnv.Marshal "ping")).1)) = .ok demoResponse ∧
    demoResponse.Body.closed = false ∧
    (∃ r st, Post demoEnv (some []) (some "ping") readyWorld = .returned (some r, none) st ∧
      r.Body.closed = true ∧ r.Body.ReadAll.1 = "" ∧ r.Body.ReadAll.2 ≠ none ∧
      r.StatusCode = demoResponse.StatusCode ∧ r.Header = demoResponse.Header ∧
      st.events.getLast? = some .bodyClose) ∧
    (∃ r st, Get demoEnv none readyWorld = .returned (some r, none) st ∧
      r = demoResponse ∧ r.Body.closed = false ∧
      r.Body.ReadAll = (demoResponse.Body.data, none) ∧
      st.events = readyWorld.events ++
        [.clientDo (builtClient ("https" ++ "://" ++ "localhost:8080") demoPair
          readyWorld.h.rootCAs)
          (builtRequest "GET" ⟨"https", "", "", "localhost:8080", "/health", "", ""⟩
            ((none : Option (List (String × String))).getD []) none)]) :=
  ⟨by rw [readyWorld_eq]; rfl, by rw [readyWorld_eq], rfl, rfl, rfl,
    C9_post_body_closed_get_body_open demoEnv none [] "ping" readyWorld
      ⟨"https", "", "", "localhost:8080", "/health", "", ""⟩ demoPair demoResponse demoResponse
      (by rw [readyWorld_eq]; rfl) (by rw [readyWorld_eq]) rfl rfl rfl⟩

/-- C10, at the CA bundle of `main.go`. -/
theorem C10_readable_ca_stores_pool_witness :
    demoEnv.ReadFile "../certs/ca.crt" = .ok caPEM ∧
    ∃ pool st, SetRootCA demoEnv "../certs/ca.crt" mainWorld = .returned (some pool, none) st ∧
      st.h.rootCAs = some pool ∧
      (basePool demoEnv).certs <+: pool.certs ∧
      (∀ x, x ∈ pool.certs ↔ x ∈ (basePool demoEnv).certs ∨ x ∈ demoEnv.pemCerts caPEM) ∧
      (demoEnv.SystemCertPool = none → basePool demoEnv = ⟨[]⟩) ∧
      (∀ p, demoEnv.SystemCertPool = some p → basePool demoEnv = p) ∧
      (demoEnv.pemCerts caPEM = [] → pool = basePool demoEnv ∧
        st.events = mainWorld.events ++
          [.readFile "../certs/ca.crt",
           .logPrintln "no certs appended, using system certs only"]) :=
  ⟨rfl, C10_readable_ca_stores_pool demoEnv "../certs/ca.crt" caPEM mainWorld rfl⟩

end GoLoad
